import Mathlib

/-!
Shallow embedding of the post-processing effect-chain builder and the
mesh-deformation system of the `model-viewer` repository.

Sources embedded here:
- `src/features/viewer/components/PostEffects.tsx` (effect chain builder)
- `src/features/viewer/constants.ts` (`DEFAULT_POST_EFFECT_SETTINGS`)
- `src/features/viewer/hooks/useDeformAmplitude.ts` (amplitude controller)
- `src/features/viewer/hooks/useModelDeform.ts` (shader injection engine,
  per-material uniform records, model-specific constants)
- the injected simplex-noise GLSL (`snoise_d` and helpers, `_d`-suffixed
  variant used for shader injection)

Numbers are modelled as real numbers; JavaScript machine floats are treated
as exact reals, which is the standard idealisation for the exponential-decay
and chain-building logic verified here.
-/

/-! ## Post-effect settings (src/features/viewer/types.ts, constants.ts)

Field order follows the `PostEffectSettings` interface in `types.ts`; the
glitch fields appear in `DEFAULT_POST_EFFECT_SETTINGS` (constants.ts) and the
control panel, and the cyberpunk enable flag appears in the control panel and
settings IO (`useSettingsIO.ts`); both are carried here even though the chain
builder ignores them. -/

structure PostEffectSettings where
  bloomEnabled : Bool
  bloomIntensity : ℝ
  bloomThreshold : ℝ
  vignetteEnabled : Bool
  vignetteOffset : ℝ
  vignetteDarkness : ℝ
  toneMappingEnabled : Bool
  smaaEnabled : Bool
  hueSaturationEnabled : Bool
  hue : ℝ
  saturation : ℝ
  depthOfFieldEnabled : Bool
  focusDistance : ℝ
  focalLength : ℝ
  bokehScale : ℝ
  colorAverageEnabled : Bool
  pixelationEnabled : Bool
  pixelationGranularity : ℝ
  dotScreenEnabled : Bool
  dotScreenScale : ℝ
  glitchEnabled : Bool
  glitchDelay : ℝ × ℝ
  glitchDuration : ℝ × ℝ
  glitchStrength : ℝ × ℝ
  cyberpunkEnabled : Bool

/-- Blend functions used by the chain builder (`BlendFunction.NORMAL`). -/
inductive BlendFunction where
  | normal
  deriving DecidableEq

/-- Tone-mapping modes used by the chain builder (`ToneMappingMode.ACES_FILMIC`). -/
inductive ToneMappingMode where
  | acesFilmic
  deriving DecidableEq

/-- Effect descriptors, one constructor per JSX effect element the builder can
push, carrying exactly the props the builder passes. -/
inductive Effect where
  | smaa
  | bloom (intensity luminanceThreshold luminanceSmoothing : ℝ)
  | vignette (offset darkness : ℝ) (blendFunction : BlendFunction)
  | toneMapping (mode : ToneMappingMode)
  | hueSaturation (hue saturation : ℝ)
  | depthOfField (focusDistance focalLength bokehScale : ℝ)
  | colorAverage
  | pixelation (granularity : ℝ)
  | dotScreen (scale : ℝ)

/-- The effect list built inside `PostEffects` (PostEffects.tsx, the `useMemo`
body): sequential conditional pushes, modelled as concatenation of singleton
or empty blocks in program order. -/
noncomputable def buildEffects (s : PostEffectSettings) : List Effect :=
  (if s.smaaEnabled then [Effect.smaa] else [])
    ++ (if s.bloomEnabled then
          [Effect.bloom s.bloomIntensity s.bloomThreshold 0.9] else [])
    ++ (if s.vignetteEnabled then
          [Effect.vignette s.vignetteOffset s.vignetteDarkness BlendFunction.normal] else [])
    ++ (if s.toneMappingEnabled then
          [Effect.toneMapping ToneMappingMode.acesFilmic] else [])
    ++ (if s.hueSaturationEnabled then
          [Effect.hueSaturation (s.hue * Real.pi) s.saturation] else [])
    ++ (if s.depthOfFieldEnabled then
          [Effect.depthOfField s.focusDistance s.focalLength s.bokehScale] else [])
    ++ (if s.colorAverageEnabled then [Effect.colorAverage] else [])
    ++ (if s.pixelationEnabled then
          [Effect.pixelation s.pixelationGranularity] else [])
    ++ (if s.dotScreenEnabled then [Effect.dotScreen s.dotScreenScale] else [])

/-- The rendering result of the `PostEffects` component: `none` when the
effect list is empty (the component returns `null`), otherwise the composed
chain (the `EffectComposer` children). -/
noncomputable def PostEffects (s : PostEffectSettings) : Option (List Effect) :=
  if (buildEffects s).length = 0 then none else some (buildEffects s)

/-- `DEFAULT_POST_EFFECT_SETTINGS` from constants.ts. The constant there does
not list the cyberpunk fields; the cyberpunk enable flag is modelled as
`false`, consistent with the default where only SMAA is enabled. -/
def DEFAULT_POST_EFFECT_SETTINGS : PostEffectSettings where
  bloomEnabled := false
  bloomIntensity := 1.0
  bloomThreshold := 0.9
  vignetteEnabled := false
  vignetteOffset := 0.5
  vignetteDarkness := 0.5
  toneMappingEnabled := false
  smaaEnabled := true
  hueSaturationEnabled := false
  hue := 0
  saturation := 0
  depthOfFieldEnabled := false
  focusDistance := 0.02
  focalLength := 0.5
  bokehScale := 2
  colorAverageEnabled := false
  pixelationEnabled := false
  pixelationGranularity := 5
  dotScreenEnabled := false
  dotScreenScale := 1.0
  glitchEnabled := false
  glitchDelay := (1.5, 3.5)
  glitchDuration := (0.6, 1.0)
  glitchStrength := (0.3, 1.0)
  cyberpunkEnabled := false

/-- Spec-side definition (refinement target, written from the spec's words,
not from the source): the canonical nine-stage order SMAA, Bloom, Vignette,
ToneMapping, HueSaturation, DepthOfField, ColorAverage, Pixelation, DotScreen,
restricted to the effects whose enable flag is true. -/
noncomputable def specCanonicalChain (s : PostEffectSettings) : List Effect :=
  (([ (s.smaaEnabled, Effect.smaa),
      (s.bloomEnabled, Effect.bloom s.bloomIntensity s.bloomThreshold 0.9),
      (s.vignetteEnabled,
        Effect.vignette s.vignetteOffset s.vignetteDarkness BlendFunction.normal),
      (s.toneMappingEnabled, Effect.toneMapping ToneMappingMode.acesFilmic),
      (s.hueSaturationEnabled, Effect.hueSaturation (s.hue * Real.pi) s.saturation),
      (s.depthOfFieldEnabled,
        Effect.depthOfField s.focusDistance s.focalLength s.bokehScale),
      (s.colorAverageEnabled, Effect.colorAverage),
      (s.pixelationEnabled, Effect.pixelation s.pixelationGranularity),
      (s.dotScreenEnabled, Effect.dotScreen s.dotScreenScale) ]
      : List (Bool × Effect)).filter (fun p => p.1)).map (fun p => p.2)

/-- Spec-side definition (written from the claim's words): the number of
enabled effects in the claim's eleven-effect canonical list (SMAA, Bloom,
Vignette, ToneMapping, HueSaturation, DepthOfField, ColorAverage, Pixelation,
DotScreen, Glitch, Cyberpunk). Per the claim, the chain should contain exactly
this many stages. -/
def specClaimEnabledCount (s : PostEffectSettings) : ℕ :=
  (([ s.smaaEnabled, s.bloomEnabled, s.vignetteEnabled, s.toneMappingEnabled,
      s.hueSaturationEnabled, s.depthOfFieldEnabled, s.colorAverageEnabled,
      s.pixelationEnabled, s.dotScreenEnabled, s.glitchEnabled,
      s.cyberpunkEnabled ] : List Bool).filter (fun b => b)).length

/-- Settings with only the glitch flag enabled (all other enable flags off,
numeric fields at their defaults). -/
def glitchOnlySettings : PostEffectSettings :=
  { DEFAULT_POST_EFFECT_SETTINGS with smaaEnabled := false, glitchEnabled := true }

/-- The scenario settings of the claim: only `smaaEnabled` and `bloomEnabled`
true, with `bloomIntensity = 1.5` and `bloomThreshold = 0.9`. -/
def smaaBloomSettings : PostEffectSettings :=
  { DEFAULT_POST_EFFECT_SETTINGS with
      bloomEnabled := true, bloomIntensity := 1.5, bloomThreshold := 0.9 }

/-- Settings with every enable flag false. -/
def allOffSettings : PostEffectSettings :=
  { DEFAULT_POST_EFFECT_SETTINGS with smaaEnabled := false }

/-- Every enable flag of the settings record is false. -/
def AllEffectsDisabled (s : PostEffectSettings) : Prop :=
  s.bloomEnabled = false ∧ s.vignetteEnabled = false ∧
    s.toneMappingEnabled = false ∧ s.smaaEnabled = false ∧
    s.hueSaturationEnabled = false ∧ s.depthOfFieldEnabled = false ∧
    s.colorAverageEnabled = false ∧ s.pixelationEnabled = false ∧
    s.dotScreenEnabled = false ∧ s.glitchEnabled = false ∧
    s.cyberpunkEnabled = false
/-! ## Deformation amplitude controller (useDeformAmplitude.ts)

`useDeformAmplitude` keeps `amplitudeRef` and `timeRef` (both starting at 0),
exposes `triggerDeform` (sets amplitude to `maxAmplitude`), and on every frame
adds `delta` to the time and either multiplies the amplitude by
`exp (-delta * decaySpeed)` (when above `AMPLITUDE_THRESHOLD`) or snaps it
to 0. -/

structure DeformState where
  amplitude : ℝ
  time : ℝ

/-- The `maxAmplitude` / `decaySpeed` options of `useDeformAmplitude`. -/
structure DeformConfig where
  maxAmplitude : ℝ
  decaySpeed : ℝ

/-- `DEFAULT_MAX_AMPLITUDE` (useDeformAmplitude.ts). -/
def DEFAULT_MAX_AMPLITUDE : ℝ := 0.8

/-- `DEFAULT_DECAY_SPEED` (useDeformAmplitude.ts). -/
def DEFAULT_DECAY_SPEED : ℝ := 1.2

/-- `AMPLITUDE_THRESHOLD` (useDeformAmplitude.ts). -/
def AMPLITUDE_THRESHOLD : ℝ := 0.001

/-- `MAX_AMPLITUDE` for externally loaded models (useModelDeform.ts). -/
def MAX_AMPLITUDE : ℝ := 0.07

/-- `DECAY_SPEED` for externally loaded models (useModelDeform.ts). -/
def DECAY_SPEED : ℝ := 3.0

/-- `NOISE_FREQUENCY` (useModelDeform.ts). -/
def NOISE_FREQUENCY : ℝ := 2.4

/-- The per-config sphere and model controllers. -/
def sphereDeformConfig : DeformConfig :=
  ⟨DEFAULT_MAX_AMPLITUDE, DEFAULT_DECAY_SPEED⟩

def modelDeformConfig : DeformConfig := ⟨MAX_AMPLITUDE, DECAY_SPEED⟩

/-- `triggerDeform`: set the amplitude to the configured maximum; elapsed
time is untouched. -/
def triggerDeform (cfg : DeformConfig) (s : DeformState) : DeformState :=
  { s with amplitude := cfg.maxAmplitude }

/-- One `useFrame` callback of `useDeformAmplitude`: accumulate the delta into
the elapsed time unconditionally, then decay the amplitude exponentially when
it exceeds the threshold and snap it to exactly 0 otherwise. -/
noncomputable def advanceFrame (cfg : DeformConfig) (delta : ℝ)
    (s : DeformState) : DeformState where
  amplitude :=
    if AMPLITUDE_THRESHOLD < s.amplitude then
      s.amplitude * Real.exp (-delta * cfg.decaySpeed)
    else 0
  time := s.time + delta

/-- A sequence of frame advances, in order. -/
noncomputable def advanceFrames (cfg : DeformConfig) (deltas : List ℝ)
    (s : DeformState) : DeformState :=
  deltas.foldl (fun st d => advanceFrame cfg d st) s

/-- Interactions with the controller: a click (`triggerDeform`) or a frame
advance with some delta. -/
inductive DeformOp where
  | trigger
  | advance (delta : ℝ)

/-- Apply one interaction to the controller state. -/
noncomputable def applyDeformOp (cfg : DeformConfig) (s : DeformState) :
    DeformOp → DeformState
  | .trigger => triggerDeform cfg s
  | .advance d => advanceFrame cfg d s

/-- Run a sequence of interactions from a starting state. -/
noncomputable def runDeformOps (cfg : DeformConfig) (ops : List DeformOp)
    (s : DeformState) : DeformState :=
  ops.foldl (applyDeformOp cfg) s

/-- Initial controller state: `useRef(0)` for both amplitude and time. -/
def initDeformState : DeformState := ⟨0, 0⟩

/-- A frame advance carries a non-negative delta; a trigger carries nothing. -/
def ValidDeformOp : DeformOp → Prop
  | .trigger => True
  | .advance d => 0 ≤ d

/-! ## Per-material uniform records (useModelDeform.ts)

One `DeformUniforms` record is created per material of the loaded model; the
`useFrame` callback copies the shared time and amplitude into every record. -/

structure DeformUniforms where
  uDeformTime : ℝ
  uDeformAmplitude : ℝ
  uDeformFrequency : ℝ

/-- The record created for each traversed material: time and amplitude start
at 0 and the frequency is the fixed `NOISE_FREQUENCY`. -/
def mkDeformUniforms : DeformUniforms := ⟨0, 0, NOISE_FREQUENCY⟩

/-- The per-frame uniform update of `useModelDeform`: write the shared
controller state into every record of the model's uniform list. -/
def updateUniformsList (s : DeformState) (l : List DeformUniforms) :
    List DeformUniforms :=
  l.map fun u => { u with uDeformTime := s.time, uDeformAmplitude := s.amplitude }
/-! ## Shader injection engine (useModelDeform.ts `onBeforeCompile`)

The injection is textual: the uniform declarations and the `_d`-suffixed
simplex-noise source are prepended to the vertex-shader text, then the
JavaScript `String.replace` (first occurrence only, plain-string pattern)
rewrites `#include <begin_vertex>` into the displacement code. Strings are
modelled as `List Char`; brace characters inside the GLSL literals below are
written with `\x7b` / `\x7d` escapes. -/
def DEFORM_UNIFORMS_GLSL : String :=
  "\n// --- ボコボコ変形エフェクト用 uniform ---\nuniform float uDeformTime;\nuniform float uDeformAmplitude;\nuniform float uDeformFrequency;\n"

def SIMPLEX_NOISE_GLSL_INJECTED : String :=
  "\n// --- シンプレックスノイズ関数 ---\nvec3 mod289_d(vec3 x) \x7b return x - floor(x * (1.0 / 289.0)) * 289.0; \x7d\nvec4 mod289_d(vec4 x) \x7b return x - floor(x * (1.0 / 289.0)) * 289.0; \x7d\nvec4 permute_d(vec4 x) \x7b return mod289_d(((x * 34.0) + 1.0) * x); \x7d\nvec4 taylorInvSqrt_d(vec4 r) \x7b return 1.79284291400159 - 0.85373472095314 * r; \x7d\n\nfloat snoise_d(vec3 v) \x7b\n  const vec2 C = vec2(1.0 / 6.0, 1.0 / 3.0);\n  const vec4 D = vec4(0.0, 0.5, 1.0, 2.0);\n  vec3 i = floor(v + dot(v, C.yyy));\n  vec3 x0 = v - i + dot(i, C.xxx);\n  vec3 g = step(x0.yzx, x0.xyz);\n  vec3 l = 1.0 - g;\n  vec3 i1 = min(g.xyz, l.zxy);\n  vec3 i2 = max(g.xyz, l.zxy);\n  vec3 x1 = x0 - i1 + C.xxx;\n  vec3 x2 = x0 - i2 + C.yyy;\n  vec3 x3 = x0 - D.yyy;\n  i = mod289_d(i);\n  vec4 p = permute_d(permute_d(permute_d(\n    i.z + vec4(0.0, i1.z, i2.z, 1.0))\n    + i.y + vec4(0.0, i1.y, i2.y, 1.0))\n    + i.x + vec4(0.0, i1.x, i2.x, 1.0));\n  float n_ = 0.142857142857;\n  vec3 ns = n_ * D.wyz - D.xzx;\n  vec4 j = p - 49.0 * floor(p * ns.z * ns.z);\n  vec4 x_ = floor(j * ns.z);\n  vec4 y_ = floor(j - 7.0 * x_);\n  vec4 x = x_ * ns.x + ns.yyyy;\n  vec4 y = y_ * ns.x + ns.yyyy;\n  vec4 h = 1.0 - abs(x) - abs(y);\n  vec4 b0 = vec4(x.xy, y.xy);\n  vec4 b1 = vec4(x.zw, y.zw);\n  vec4 s0 = floor(b0) * 2.0 + 1.0;\n  vec4 s1 = floor(b1) * 2.0 + 1.0;\n  vec4 sh = -step(h, vec4(0.0));\n  vec4 a0 = b0.xzyw + s0.xzyw * sh.xxyy;\n  vec4 a1 = b1.xzyw + s1.xzyw * sh.zzww;\n  vec3 p0 = vec3(a0.xy, h.x);\n  vec3 p1 = vec3(a0.zw, h.y);\n  vec3 p2 = vec3(a1.xy, h.z);\n  vec3 p3 = vec3(a1.zw, h.w);\n  vec4 norm = taylorInvSqrt_d(vec4(dot(p0,p0), dot(p1,p1), dot(p2,p2), dot(p3,p3)));\n  p0 *= norm.x; p1 *= norm.y; p2 *= norm.z; p3 *= norm.w;\n  vec4 m = max(0.6 - vec4(dot(x0,x0), dot(x1,x1), dot(x2,x2), dot(x3,x3)), 0.0);\n  m = m * m;\n  return 42.0 * dot(m*m, vec4(dot(p0,x0), dot(p1,x1), dot(p2,x2), dot(p3,x3)));\n\x7d\n"

def DEFORM_VERTEX_GLSL : String :=
  "\nvec3 transformed = vec3(position);\n\n// ノイズベースの変形を適用\n// 2層のノイズを異なる周波数・方向で重ねて自然なうねりを生成\nfloat dn1 = snoise_d(transformed * uDeformFrequency + uDeformTime * 0.8) * 0.7;\nfloat dn2 = snoise_d(transformed * uDeformFrequency * 1.5 - uDeformTime * 0.5) * 0.3;\nfloat deformDisp = (dn1 + dn2) * uDeformAmplitude;\ntransformed += normal * deformDisp;\n"

/-- The Three.js chunk marker that the injection replaces. -/
def BEGIN_VERTEX_MARKER : String := "#include <begin_vertex>"

/-- Text prepended in front of the original vertex shader by
`onBeforeCompile` (the uniform declarations, the noise source, and the two
joining newlines). -/
def injectedHeader : List Char :=
  (DEFORM_UNIFORMS_GLSL ++ "\n" ++ SIMPLEX_NOISE_GLSL_INJECTED ++ "\n").data

/-- JavaScript `String.replace` with a plain-string pattern: replace the
first occurrence of `pat` (if any) by `rep`, leaving everything else
untouched. -/
def replaceFirst (pat rep : List Char) : List Char → List Char
  | [] => []
  | c :: rest =>
    if pat.isPrefixOf (c :: rest) then rep ++ (c :: rest).drop pat.length
    else c :: replaceFirst pat rep rest

/-- The `onBeforeCompile` rewrite of the vertex-shader text: prepend the
uniform declarations and the noise source, then replace the first
`#include <begin_vertex>` with the displacement code. -/
def injectVertexShader (vertexShader : List Char) : List Char :=
  replaceFirst BEGIN_VERTEX_MARKER.data DEFORM_VERTEX_GLSL.data
    (injectedHeader ++ vertexShader)
/-! ## Procedural noise module (`snoise_d`, the `_d`-suffixed injected variant)

A direct embedding of the GLSL: `vec3` / `vec4` are records of reals,
`floor`, `abs`, `min`, `max` and `step` act componentwise, and every swizzle
that the GLSL uses is spelled out as an explicit constructor application. -/

structure Vec3 where
  x : ℝ
  y : ℝ
  z : ℝ

structure Vec4 where
  x : ℝ
  y : ℝ
  z : ℝ
  w : ℝ

/-- GLSL scalar `floor`. -/
noncomputable def rfloor (r : ℝ) : ℝ := (⌊r⌋ : ℤ)

/-- GLSL scalar `step edge x`: 0 when `x < edge`, else 1. -/
noncomputable def rstep (edge x : ℝ) : ℝ := if x < edge then 0 else 1

noncomputable def v3add (a b : Vec3) : Vec3 := ⟨a.x + b.x, a.y + b.y, a.z + b.z⟩

noncomputable def v3sub (a b : Vec3) : Vec3 := ⟨a.x - b.x, a.y - b.y, a.z - b.z⟩

noncomputable def v3addScalar (a : Vec3) (r : ℝ) : Vec3 :=
  ⟨a.x + r, a.y + r, a.z + r⟩

noncomputable def v3smul (r : ℝ) (a : Vec3) : Vec3 := ⟨r * a.x, r * a.y, r * a.z⟩

noncomputable def v3floor (a : Vec3) : Vec3 := ⟨rfloor a.x, rfloor a.y, rfloor a.z⟩

noncomputable def v3step (edge a : Vec3) : Vec3 :=
  ⟨rstep edge.x a.x, rstep edge.y a.y, rstep edge.z a.z⟩

noncomputable def v3min (a b : Vec3) : Vec3 :=
  ⟨min a.x b.x, min a.y b.y, min a.z b.z⟩

noncomputable def v3max (a b : Vec3) : Vec3 :=
  ⟨max a.x b.x, max a.y b.y, max a.z b.z⟩

noncomputable def dot3 (a b : Vec3) : ℝ := a.x * b.x + a.y * b.y + a.z * b.z

noncomputable def v4add (a b : Vec4) : Vec4 :=
  ⟨a.x + b.x, a.y + b.y, a.z + b.z, a.w + b.w⟩

noncomputable def v4sub (a b : Vec4) : Vec4 :=
  ⟨a.x - b.x, a.y - b.y, a.z - b.z, a.w - b.w⟩

noncomputable def v4addScalar (a : Vec4) (r : ℝ) : Vec4 :=
  ⟨a.x + r, a.y + r, a.z + r, a.w + r⟩

noncomputable def v4smul (r : ℝ) (a : Vec4) : Vec4 :=
  ⟨r * a.x, r * a.y, r * a.z, r * a.w⟩

/-- Componentwise (Hadamard) product, GLSL `*` on two `vec4`s. -/
noncomputable def v4mul (a b : Vec4) : Vec4 :=
  ⟨a.x * b.x, a.y * b.y, a.z * b.z, a.w * b.w⟩

noncomputable def v4neg (a : Vec4) : Vec4 := ⟨-a.x, -a.y, -a.z, -a.w⟩

noncomputable def v4floor (a : Vec4) : Vec4 :=
  ⟨rfloor a.x, rfloor a.y, rfloor a.z, rfloor a.w⟩

noncomputable def v4abs (a : Vec4) : Vec4 := ⟨|a.x|, |a.y|, |a.z|, |a.w|⟩

noncomputable def v4step (edge a : Vec4) : Vec4 :=
  ⟨rstep edge.x a.x, rstep edge.y a.y, rstep edge.z a.z, rstep edge.w a.w⟩

noncomputable def v4max (a b : Vec4) : Vec4 :=
  ⟨max a.x b.x, max a.y b.y, max a.z b.z, max a.w b.w⟩

/-- GLSL `vec4(r)`: all four components equal to `r`. -/
def v4const (r : ℝ) : Vec4 := ⟨r, r, r, r⟩

noncomputable def dot4 (a b : Vec4) : ℝ :=
  a.x * b.x + a.y * b.y + a.z * b.z + a.w * b.w

/-- GLSL `mod289_d(vec3 x) = x - floor(x * (1.0 / 289.0)) * 289.0`. -/
noncomputable def mod289_d3 (a : Vec3) : Vec3 :=
  v3sub a (v3smul 289 (v3floor (v3smul (1 / 289) a)))

/-- GLSL `mod289_d(vec4 x) = x - floor(x * (1.0 / 289.0)) * 289.0`. -/
noncomputable def mod289_d4 (a : Vec4) : Vec4 :=
  v4sub a (v4smul 289 (v4floor (v4smul (1 / 289) a)))

/-- GLSL `permute_d(vec4 x) = mod289_d(((x * 34.0) + 1.0) * x)`. -/
noncomputable def permute_d (a : Vec4) : Vec4 :=
  mod289_d4 (v4mul (v4addScalar (v4smul 34 a) 1) a)

/-- GLSL `taylorInvSqrt_d(vec4 r) = 1.79284291400159 - 0.85373472095314 * r`. -/
noncomputable def taylorInvSqrt_d (r : Vec4) : Vec4 :=
  v4sub (v4const 1.79284291400159) (v4smul 0.85373472095314 r)

/-- The injected 3D simplex noise `snoise_d`, translated line by line from
the GLSL source. -/
noncomputable def snoise_d (v : Vec3) : ℝ :=
  let Cx : ℝ := 1 / 6
  let Cy : ℝ := 1 / 3
  let D : Vec4 := ⟨0.0, 0.5, 1.0, 2.0⟩
  let i0 := v3floor (v3addScalar v (dot3 v ⟨Cy, Cy, Cy⟩))
  let x0 := v3addScalar (v3sub v i0) (dot3 i0 ⟨Cx, Cx, Cx⟩)
  let g := v3step ⟨x0.y, x0.z, x0.x⟩ ⟨x0.x, x0.y, x0.z⟩
  let l : Vec3 := ⟨1 - g.x, 1 - g.y, 1 - g.z⟩
  let i1 := v3min ⟨g.x, g.y, g.z⟩ ⟨l.z, l.x, l.y⟩
  let i2 := v3max ⟨g.x, g.y, g.z⟩ ⟨l.z, l.x, l.y⟩
  let x1 := v3addScalar (v3sub x0 i1) Cx
  let x2 := v3addScalar (v3sub x0 i2) Cy
  let x3 := v3sub x0 ⟨D.y, D.y, D.y⟩
  let i := mod289_d3 i0
  let p := permute_d (v4add (v4addScalar (permute_d (v4add (v4addScalar
    (permute_d (v4addScalar ⟨0.0, i1.z, i2.z, 1.0⟩ i.z)) i.y)
    ⟨0.0, i1.y, i2.y, 1.0⟩)) i.x) ⟨0.0, i1.x, i2.x, 1.0⟩)
  let n_ : ℝ := 0.142857142857
  let ns := v3sub (v3smul n_ ⟨D.w, D.y, D.z⟩) ⟨D.x, D.z, D.x⟩
  let j := v4sub p (v4smul 49 (v4floor (v4smul (ns.z * ns.z) p)))
  let x_ := v4floor (v4smul ns.z j)
  let y_ := v4floor (v4sub j (v4smul 7 x_))
  let x := v4addScalar (v4smul ns.x x_) ns.y
  let y := v4addScalar (v4smul ns.x y_) ns.y
  let h := v4sub (v4sub (v4const 1) (v4abs x)) (v4abs y)
  let b0 : Vec4 := ⟨x.x, x.y, y.x, y.y⟩
  let b1 : Vec4 := ⟨x.z, x.w, y.z, y.w⟩
  let s0 := v4addScalar (v4smul 2 (v4floor b0)) 1
  let s1 := v4addScalar (v4smul 2 (v4floor b1)) 1
  let sh := v4neg (v4step h (v4const 0.0))
  let a0 := v4add ⟨b0.x, b0.z, b0.y, b0.w⟩
    (v4mul ⟨s0.x, s0.z, s0.y, s0.w⟩ ⟨sh.x, sh.x, sh.y, sh.y⟩)
  let a1 := v4add ⟨b1.x, b1.z, b1.y, b1.w⟩
    (v4mul ⟨s1.x, s1.z, s1.y, s1.w⟩ ⟨sh.z, sh.z, sh.w, sh.w⟩)
  let p0 : Vec3 := ⟨a0.x, a0.y, h.x⟩
  let p1 : Vec3 := ⟨a0.z, a0.w, h.y⟩
  let p2 : Vec3 := ⟨a1.x, a1.y, h.z⟩
  let p3 : Vec3 := ⟨a1.z, a1.w, h.w⟩
  let nrm := taylorInvSqrt_d ⟨dot3 p0 p0, dot3 p1 p1, dot3 p2 p2, dot3 p3 p3⟩
  let q0 := v3smul nrm.x p0
  let q1 := v3smul nrm.y p1
  let q2 := v3smul nrm.z p2
  let q3 := v3smul nrm.w p3
  let m := v4max (v4sub (v4const 0.6)
    ⟨dot3 x0 x0, dot3 x1 x1, dot3 x2 x2, dot3 x3 x3⟩) (v4const 0.0)
  let m2 := v4mul m m
  42.0 * dot4 (v4mul m2 m2) ⟨dot3 q0 x0, dot3 q1 x1, dot3 q2 x2, dot3 q3 x3⟩
/-- A concrete vertex shader containing the chunk marker, split around it. -/
def sampleShaderHead : List Char := "void main() \x7b\n".data

def sampleShaderTail : List Char :=
  "\ngl_Position = vec4(transformed, 1.0);\n\x7d".data

def sampleVertexShader : List Char :=
  sampleShaderHead ++ BEGIN_VERTEX_MARKER.data ++ sampleShaderTail

/-- A concrete vertex shader that does not contain the chunk marker. -/
def sampleMarkerlessShader : List Char :=
  "void main() \x7b gl_Position = vec4(position, 1.0); \x7d".data

/-- Settings with only hue/saturation (and nothing else) enabled. -/
def hueSatOnlySettings : PostEffectSettings :=
  { DEFAULT_POST_EFFECT_SETTINGS with
      smaaEnabled := false, hueSaturationEnabled := true,
      hue := 0.5, saturation := 0.25 }

/-! ## Helper lemmas about `replaceFirst` and the injected header -/

lemma replaceFirst_nil (pat rep : List Char) : replaceFirst pat rep [] = [] := rfl

/-- `replaceFirst` rewrites the first occurrence of the pattern: on a text of
the shape `a ++ pat ++ b` where no occurrence of `pat` starts inside `a`, it
yields `a ++ rep ++ b`. -/
lemma replaceFirst_of_first_occurrence (pat rep : List Char) (hpat : pat ≠ []) :
    ∀ (a b : List Char),
      (∀ i < a.length, ¬ pat <+: (a ++ pat ++ b).drop i) →
      replaceFirst pat rep (a ++ pat ++ b) = a ++ rep ++ b := by
  intro a
  induction a with
  | nil =>
    intro b _
    obtain ⟨c, pat', rfl⟩ : ∃ c pat', pat = c :: pat' := by
      cases pat with
      | nil => exact absurd rfl hpat
      | cons c pat' => exact ⟨c, pat', rfl⟩
    simp only [List.nil_append, List.cons_append]
    rw [replaceFirst]
    rw [if_pos (show (c :: pat').isPrefixOf (c :: (pat' ++ b)) = true from
      List.isPrefixOf_iff_prefix.mpr ⟨b, rfl⟩)]
    simp [List.drop_left]
  | cons c a' ih =>
    intro b h
    simp only [List.cons_append]
    rw [replaceFirst]
    rw [if_neg (by
      intro hpre
      exact h 0 (Nat.succ_pos _) (by
        simpa using List.isPrefixOf_iff_prefix.mp hpre))]
    rw [ih b (by
      intro i hi hpre
      exact h (i + 1) (Nat.succ_lt_succ hi) (by
        simpa [List.drop_succ_cons] using hpre))]

/-- On a text with no occurrence of the pattern, `replaceFirst` is the
identity. -/
lemma replaceFirst_of_no_occurrence (pat rep : List Char) :
    ∀ s : List Char, (∀ i, ¬ pat <+: s.drop i) → replaceFirst pat rep s = s := by
  intro s
  induction s with
  | nil => intro _; rfl
  | cons c rest ih =>
    intro h
    rw [replaceFirst]
    rw [if_neg (by
      intro hpre
      exact h 0 (by simpa using List.isPrefixOf_iff_prefix.mp hpre))]
    rw [ih (by
      intro i hpre
      exact h (i + 1) (by simpa [List.drop_succ_cons] using hpre))]

/-- A pattern that is a prefix of some `drop` is an infix of the whole list. -/
lemma infix_of_prefix_drop {pat l : List Char} {i : ℕ}
    (h : pat <+: l.drop i) : pat <:+: l := by
  obtain ⟨v, hv⟩ := h
  exact ⟨l.take i, v, by rw [List.append_assoc, hv, List.take_append_drop]⟩

set_option maxRecDepth 40000 in
/-- The prepended header (uniform declarations plus noise source) contains no
`#` character. -/
lemma hash_not_mem_injectedHeader : '#' ∉ injectedHeader := by decide

/-- No occurrence of a pattern starting with `#` can begin inside a prepended
header that contains no `#`. -/
lemma no_pat_inside_hdr (t hdr vs : List Char) (hhash : '#' ∉ hdr) (i : ℕ)
    (hi : i < hdr.length) (h : ('#' :: t) <+: (hdr ++ vs).drop i) : False := by
  obtain ⟨v, hv⟩ := h
  have hhead : ((hdr ++ vs).drop i).head? = some '#' := by
    rw [← hv]
    rfl
  rw [List.head?_drop, List.getElem?_append_left hi] at hhead
  obtain ⟨hlt, hval⟩ := List.getElem?_eq_some.mp hhead
  exact hhash (hval ▸ List.getElem_mem hlt)

/-- Header-prepended first-occurrence rewrite: prepending a `#`-free header
does not disturb the first occurrence of a `#`-headed pattern. -/
lemma replaceFirst_hdr_first_occurrence (t rep hdr : List Char)
    (hhash : '#' ∉ hdr) (a b : List Char)
    (hfirst : ∀ i < a.length, ¬ ('#' :: t) <+: (a ++ ('#' :: t) ++ b).drop i) :
    replaceFirst ('#' :: t) rep (hdr ++ (a ++ ('#' :: t) ++ b))
      = (hdr ++ a) ++ rep ++ b := by
  have hassoc : hdr ++ (a ++ ('#' :: t) ++ b) = (hdr ++ a) ++ ('#' :: t) ++ b := by
    simp [List.append_assoc]
  rw [hassoc]
  apply replaceFirst_of_first_occurrence _ _ (List.cons_ne_nil _ _)
  intro i hi hpre
  rcases Nat.lt_or_ge i hdr.length with hlt | hge
  · refine no_pat_inside_hdr t hdr (a ++ ('#' :: t) ++ b) hhash i hlt ?_
    rw [← hassoc] at hpre
    exact hpre
  · obtain ⟨i', rfl⟩ : ∃ i', i = hdr.length + i' :=
      ⟨i - hdr.length, (Nat.add_sub_cancel' hge).symm⟩
    have hi' : i' < a.length := by
      rw [List.length_append] at hi
      exact Nat.lt_of_add_lt_add_left hi
    refine hfirst i' hi' ?_
    rw [← hassoc, List.drop_append i'] at hpre
    exact hpre

/-- Header-prepended no-occurrence identity: when the text has no occurrence
of the `#`-headed pattern, prepending a `#`-free header and replacing is just
the prepend. -/
lemma replaceFirst_hdr_no_occurrence (t rep hdr : List Char)
    (hhash : '#' ∉ hdr) (vs : List Char) (h : ¬ ('#' :: t) <:+: vs) :
    replaceFirst ('#' :: t) rep (hdr ++ vs) = hdr ++ vs := by
  apply replaceFirst_of_no_occurrence
  intro i hpre
  rcases Nat.lt_or_ge i hdr.length with hlt | hge
  · exact no_pat_inside_hdr t hdr vs hhash i hlt hpre
  · obtain ⟨i', rfl⟩ : ∃ i', i = hdr.length + i' :=
      ⟨i - hdr.length, (Nat.add_sub_cancel' hge).symm⟩
    rw [List.drop_append] at hpre
    exact h (infix_of_prefix_drop hpre)
/-- C4: for every vertex-shader text containing `#include <begin_vertex>`,
the injection outputs the uniform declarations and the noise source prepended
to the original text, with the (first occurrence of the) marker replaced by
the displacement code `DEFORM_VERTEX_GLSL`, and no other part of the original
text changed: on input `a ++ marker ++ b` with no occurrence of the marker
starting inside `a`, the output is exactly
`injectedHeader ++ a ++ DEFORM_VERTEX_GLSL ++ b`. -/
theorem injection_rewrites_marker (vs a b : List Char)
    (hsplit : vs = a ++ BEGIN_VERTEX_MARKER.data ++ b)
    (hfirst : ∀ i < a.length, ¬ BEGIN_VERTEX_MARKER.data <+: vs.drop i) :
    injectVertexShader vs = injectedHeader ++ a ++ DEFORM_VERTEX_GLSL.data ++ b := by
  subst hsplit
  have hm : BEGIN_VERTEX_MARKER.data = '#' :: "include <begin_vertex>".data := rfl
  unfold injectVertexShader
  rw [hm] at hfirst ⊢
  exact replaceFirst_hdr_first_occurrence _ DEFORM_VERTEX_GLSL.data injectedHeader
    hash_not_mem_injectedHeader a b hfirst

set_option maxRecDepth 4000 in
/-- C4 witness: the rewrite on a concrete shader. -/
theorem injection_rewrites_marker_witness :
    injectVertexShader sampleVertexShader
      = injectedHeader ++ sampleShaderHead ++ DEFORM_VERTEX_GLSL.data
          ++ sampleShaderTail :=
  injection_rewrites_marker sampleVertexShader sampleShaderHead sampleShaderTail
    rfl (by decide)

/-- C5: if the vertex-shader text does not contain the marker, the injection
changes nothing beyond prepending the declarations: the output is exactly the
header followed by the unchanged original text (the rewrite is a total
function — no exception, no logging in this code path). -/
theorem injection_silent_when_marker_missing (vs : List Char)
    (h : ¬ BEGIN_VERTEX_MARKER.data <:+: vs) :
    injectVertexShader vs = injectedHeader ++ vs := by
  have hm : BEGIN_VERTEX_MARKER.data = '#' :: "include <begin_vertex>".data := rfl
  unfold injectVertexShader
  rw [hm] at h ⊢
  exact replaceFirst_hdr_no_occurrence _ DEFORM_VERTEX_GLSL.data injectedHeader
    hash_not_mem_injectedHeader vs h

set_option maxRecDepth 4000 in
/-- C5 witness: a concrete marker-less shader passes through unchanged
(modulo the prepended header). -/
theorem injection_silent_witness :
    injectVertexShader sampleMarkerlessShader
      = injectedHeader ++ sampleMarkerlessShader :=
  injection_silent_when_marker_missing sampleMarkerlessShader (by decide)
/-! ## Helper lemmas about the effect chain builder -/

lemma filter_snd_cons (b : Bool) (e : Effect) (rest : List (Bool × Effect)) :
    ((((b, e) :: rest).filter (fun p => p.1)).map (fun p => p.2))
      = (if b then [e] else [])
          ++ ((rest.filter (fun p => p.1)).map (fun p => p.2)) := by
  cases b <;> simp [List.filter_cons]

lemma mem_if_singleton (c : Bool) (x e : Effect) :
    x ∈ (if c then [e] else ([] : List Effect)) ↔ c = true ∧ x = e := by
  cases c <;> simp

/-- C1 counterexample: with only the glitch enable flag true, the claim's
canonical eleven-effect list says the chain should have exactly one stage
(the Glitch stage), but the builder produces the empty chain — the builder
never emits a Glitch (or Cyberpunk) stage. -/
theorem effect_chain_glitch_counterexample :
    glitchOnlySettings.glitchEnabled = true ∧
    (buildEffects glitchOnlySettings).length = 0 ∧
    specClaimEnabledCount glitchOnlySettings = 1 ∧
    (buildEffects glitchOnlySettings).length ≠
      specClaimEnabledCount glitchOnlySettings := by
  refine ⟨rfl, ?_, rfl, ?_⟩
  · simp [buildEffects, glitchOnlySettings, DEFAULT_POST_EFFECT_SETTINGS]
  · simp [buildEffects, glitchOnlySettings, DEFAULT_POST_EFFECT_SETTINGS,
      specClaimEnabledCount]

/-- C1 (amended): for every settings value the builder outputs the canonical
nine-effect order (SMAA, Bloom, Vignette, ToneMapping, HueSaturation,
DepthOfField, ColorAverage, Pixelation, DotScreen) restricted to the enabled
effects, each appearing once with its own parameters; glitch and cyberpunk
flags never contribute a stage.  The claim's scenario holds: SMAA+Bloom
settings with intensity 1.5 and threshold 0.9 yield exactly
`[SMAA, Bloom(1.5, 0.9)]`. -/
theorem effect_chain_canonical_order :
    (∀ s : PostEffectSettings, buildEffects s = specCanonicalChain s) ∧
    buildEffects smaaBloomSettings
      = [Effect.smaa, Effect.bloom 1.5 0.9 0.9] := by
  constructor
  · intro s
    simp only [specCanonicalChain, filter_snd_cons, List.filter_nil,
      List.map_nil, List.append_nil, buildEffects, List.append_assoc]
  · simp [buildEffects, smaaBloomSettings, DEFAULT_POST_EFFECT_SETTINGS]

/-- C3: when every enable flag is false the builder produces zero stages and
the component returns the empty composition signal (`null`); the default
settings (only SMAA enabled) produce a single-stage chain. -/
theorem postEffects_empty_and_default :
    (∀ s : PostEffectSettings, AllEffectsDisabled s → PostEffects s = none) ∧
    PostEffects DEFAULT_POST_EFFECT_SETTINGS = some [Effect.smaa] := by
  constructor
  · rintro s ⟨h1, h2, h3, h4, h5, h6, h7, h8, h9, h10, h11⟩
    simp [PostEffects, buildEffects, h1, h2, h3, h4, h5, h6, h7, h8, h9]
  · simp [PostEffects, buildEffects, DEFAULT_POST_EFFECT_SETTINGS]

/-- C3 witness: the all-disabled settings value satisfies the hypothesis and
yields the empty composition. -/
theorem postEffects_empty_witness :
    AllEffectsDisabled allOffSettings ∧ PostEffects allOffSettings = none :=
  have hall : AllEffectsDisabled allOffSettings :=
    ⟨rfl, rfl, rfl, rfl, rfl, rfl, rfl, rfl, rfl, rfl, rfl⟩
  ⟨hall, (postEffects_empty_and_default.1 allOffSettings hall)⟩

/-- C10: when hue/saturation is enabled the builder forwards `hue * π` (not
the raw hue) and the unchanged saturation to the HueSaturation stage, and any
HueSaturation stage in the chain carries exactly those values. -/
theorem hueSaturation_scales_hue_by_pi (s : PostEffectSettings)
    (h : s.hueSaturationEnabled = true) :
    Effect.hueSaturation (s.hue * Real.pi) s.saturation ∈ buildEffects s ∧
    ∀ hu sa : ℝ, Effect.hueSaturation hu sa ∈ buildEffects s →
      hu = s.hue * Real.pi ∧ sa = s.saturation := by
  constructor
  · simp [buildEffects, mem_if_singleton, h]
  · intro hu sa hmem
    simp only [buildEffects, List.mem_append, mem_if_singleton] at hmem
    rcases hmem with ((((((((⟨_, he⟩ | ⟨_, he⟩) | ⟨_, he⟩) | ⟨_, he⟩) |
      ⟨_, he⟩) | ⟨_, he⟩) | ⟨_, he⟩) | ⟨_, he⟩) | ⟨_, he⟩) <;>
      first
        | exact (Effect.noConfusion he)
        | exact ⟨(Effect.hueSaturation.injEq _ _ _ _).mp he |>.1,
            (Effect.hueSaturation.injEq _ _ _ _).mp he |>.2⟩

/-- C10 witness: concrete settings with hue 0.5 and saturation 0.25. -/
theorem hueSaturation_scales_hue_by_pi_witness :
    Effect.hueSaturation (hueSatOnlySettings.hue * Real.pi)
        hueSatOnlySettings.saturation ∈ buildEffects hueSatOnlySettings ∧
    ∀ hu sa : ℝ,
      Effect.hueSaturation hu sa ∈ buildEffects hueSatOnlySettings →
        hu = hueSatOnlySettings.hue * Real.pi ∧
        sa = hueSatOnlySettings.saturation :=
  hueSaturation_scales_hue_by_pi hueSatOnlySettings rfl
/-! ## Helper lemmas about the amplitude controller -/

lemma advanceFrames_nil (cfg : DeformConfig) (s : DeformState) :
    advanceFrames cfg [] s = s := rfl

lemma advanceFrames_cons (cfg : DeformConfig) (d : ℝ) (ds : List ℝ)
    (s : DeformState) :
    advanceFrames cfg (d :: ds) s = advanceFrames cfg ds (advanceFrame cfg d s) :=
  rfl

/-- A state with amplitude exactly 0 keeps amplitude 0 under any advances. -/
lemma advanceFrames_zero_amplitude (cfg : DeformConfig) :
    ∀ (deltas : List ℝ) (s : DeformState), s.amplitude = 0 →
      (advanceFrames cfg deltas s).amplitude = 0 := by
  intro deltas
  induction deltas with
  | nil => intro s h; exact h
  | cons d ds ih =>
    intro s h
    rw [advanceFrames_cons]
    refine ih _ ?_
    simp only [advanceFrame, h]
    rw [if_neg (by norm_num [AMPLITUDE_THRESHOLD])]

/-- Once the amplitude is at or below the threshold, every further advance
snaps it to exactly 0. -/
lemma advanceFrames_below_threshold (cfg : DeformConfig) (s : DeformState)
    (h : s.amplitude ≤ AMPLITUDE_THRESHOLD) (d : ℝ) (ds : List ℝ) :
    (advanceFrames cfg (d :: ds) s).amplitude = 0 := by
  rw [advanceFrames_cons]
  refine advanceFrames_zero_amplitude cfg ds _ ?_
  simp only [advanceFrame]
  rw [if_neg (not_lt.mpr h)]

/-- Exact exponential decay while the decayed value stays above the
threshold. -/
lemma advanceFrames_decay (cfg : DeformConfig) (hk : 0 ≤ cfg.decaySpeed) :
    ∀ (deltas : List ℝ) (s : DeformState), (∀ d ∈ deltas, 0 ≤ d) →
      AMPLITUDE_THRESHOLD <
        s.amplitude * Real.exp (-cfg.decaySpeed * deltas.sum) →
      advanceFrames cfg deltas s
        = ⟨s.amplitude * Real.exp (-cfg.decaySpeed * deltas.sum),
            s.time + deltas.sum⟩ := by
  intro deltas
  induction deltas with
  | nil =>
    intro s _ _
    obtain ⟨a, t⟩ := s
    simp [advanceFrames]
  | cons d ds ih =>
    intro s hd hthr
    rw [List.sum_cons] at hthr
    have hd0 : 0 ≤ d := hd d (List.mem_cons_self d ds)
    have hds : ∀ x ∈ ds, 0 ≤ x := fun x hx => hd x (List.mem_cons_of_mem d hx)
    have hsum : 0 ≤ ds.sum := List.sum_nonneg hds
    have hexp_pos := Real.exp_pos (-cfg.decaySpeed * (d + ds.sum))
    have hthr_pos : (0 : ℝ) < AMPLITUDE_THRESHOLD := by
      norm_num [AMPLITUDE_THRESHOLD]
    have hamp_pos : 0 < s.amplitude := by nlinarith
    have hexp_le_one : Real.exp (-cfg.decaySpeed * (d + ds.sum)) ≤ 1 :=
      Real.exp_le_one_iff.mpr (by nlinarith)
    have hthr_amp : AMPLITUDE_THRESHOLD < s.amplitude := by nlinarith
    have hstep : advanceFrame cfg d s
        = ⟨s.amplitude * Real.exp (-d * cfg.decaySpeed), s.time + d⟩ := by
      simp only [advanceFrame]
      rw [if_pos hthr_amp]
    have hmul : s.amplitude * Real.exp (-d * cfg.decaySpeed) *
        Real.exp (-cfg.decaySpeed * ds.sum)
        = s.amplitude * Real.exp (-cfg.decaySpeed * (d + ds.sum)) := by
      rw [mul_assoc, ← Real.exp_add]
      ring_nf
    have hthr' : AMPLITUDE_THRESHOLD <
        s.amplitude * Real.exp (-d * cfg.decaySpeed) *
          Real.exp (-cfg.decaySpeed * ds.sum) := by
      rw [hmul]
      exact hthr
    rw [advanceFrames_cons, hstep, ih _ hds (by simpa using hthr')]
    rw [List.sum_cons]
    simp only [DeformState.mk.injEq]
    constructor
    · simpa using hmul
    · ring
lemma runDeformOps_cons (cfg : DeformConfig) (op : DeformOp)
    (ops : List DeformOp) (s : DeformState) :
    runDeformOps cfg (op :: ops) s
      = runDeformOps cfg ops (applyDeformOp cfg s op) := rfl

/-- Non-negativity of the amplitude is preserved by any interaction
sequence. -/
lemma runDeformOps_amplitude_nonneg (cfg : DeformConfig)
    (hmax : 0 ≤ cfg.maxAmplitude) :
    ∀ (ops : List DeformOp) (s : DeformState), 0 ≤ s.amplitude →
      0 ≤ (runDeformOps cfg ops s).amplitude := by
  intro ops
  induction ops with
  | nil => intro s h; exact h
  | cons op ops ih =>
    intro s h
    rw [runDeformOps_cons]
    refine ih _ ?_
    cases op with
    | trigger => simpa [applyDeformOp, triggerDeform] using hmax
    | advance d =>
      simp only [applyDeformOp, advanceFrame]
      split_ifs with hlt
      · exact mul_nonneg h (Real.exp_pos _).le
      · exact le_refl 0

/-- C2: after `trigger()` the amplitude follows
`maxAmplitude * exp (-decaySpeed * t)` across any non-negative frame deltas
summing to `t`, as long as that value stays above the 0.001 threshold; once
the amplitude is at or below the threshold every further advance yields
exactly 0; elapsed time accumulates unconditionally on every advance; and the
configured constants are 0.8 / 1.2 for the standalone sphere and 0.07 / 3.0
for externally loaded models. -/
theorem deform_amplitude_exponential_decay (cfg : DeformConfig)
    (hk : 0 ≤ cfg.decaySpeed) :
    (∀ (s : DeformState) (deltas : List ℝ), (∀ d ∈ deltas, 0 ≤ d) →
        AMPLITUDE_THRESHOLD <
          cfg.maxAmplitude * Real.exp (-cfg.decaySpeed * deltas.sum) →
        advanceFrames cfg deltas (triggerDeform cfg s)
          = ⟨cfg.maxAmplitude * Real.exp (-cfg.decaySpeed * deltas.sum),
              s.time + deltas.sum⟩)
    ∧ (∀ (s : DeformState) (d : ℝ) (deltas : List ℝ),
        s.amplitude ≤ AMPLITUDE_THRESHOLD →
        (advanceFrames cfg (d :: deltas) s).amplitude = 0)
    ∧ (∀ (s : DeformState) (d : ℝ), (advanceFrame cfg d s).time = s.time + d)
    ∧ sphereDeformConfig = ⟨0.8, 1.2⟩ ∧ modelDeformConfig = ⟨0.07, 3.0⟩ := by
  refine ⟨?_, ?_, ?_, rfl, rfl⟩
  · intro s deltas hd hthr
    have h := advanceFrames_decay cfg hk deltas (triggerDeform cfg s) hd
      (by simpa [triggerDeform] using hthr)
    simpa [triggerDeform] using h
  · intro s d deltas h
    exact advanceFrames_below_threshold cfg s h d deltas
  · intro s d
    rfl

/-- C2 witness: the sphere configuration, two zero-length frames after a
trigger. -/
theorem deform_amplitude_decay_witness :
    advanceFrames sphereDeformConfig [0, 0]
        (triggerDeform sphereDeformConfig initDeformState)
      = ⟨sphereDeformConfig.maxAmplitude *
            Real.exp (-sphereDeformConfig.decaySpeed * ([0, 0] : List ℝ).sum),
          initDeformState.time + ([0, 0] : List ℝ).sum⟩ :=
  (deform_amplitude_exponential_decay sphereDeformConfig
      (by norm_num [sphereDeformConfig, DEFAULT_DECAY_SPEED])).1
    initDeformState [0, 0]
    (by intro d hd; simp at hd; exact le_of_eq hd.symm)
    (by norm_num [AMPLITUDE_THRESHOLD, sphereDeformConfig,
      DEFAULT_MAX_AMPLITUDE, DEFAULT_DECAY_SPEED])

/-- C6: `trigger()` is idempotent — a second immediate trigger changes
nothing, and from any state a trigger resets the amplitude to exactly
`maxAmplitude` while leaving the elapsed time untouched. -/
theorem triggerDeform_idempotent :
    ∀ (cfg : DeformConfig) (s : DeformState),
      triggerDeform cfg (triggerDeform cfg s) = triggerDeform cfg s ∧
      (triggerDeform cfg s).amplitude = cfg.maxAmplitude ∧
      (triggerDeform cfg s).time = s.time :=
  fun _ _ => ⟨rfl, rfl, rfl⟩

/-- C7: across every sequence of triggers and non-negative frame advances the
amplitude stays non-negative, and no valid advance ever decreases the elapsed
time. -/
theorem deformState_invariant (cfg : DeformConfig)
    (hmax : 0 ≤ cfg.maxAmplitude) :
    (∀ ops : List DeformOp, (∀ op ∈ ops, ValidDeformOp op) →
        0 ≤ (runDeformOps cfg ops initDeformState).amplitude)
    ∧ ∀ (s : DeformState) (op : DeformOp), ValidDeformOp op →
        s.time ≤ (applyDeformOp cfg s op).time := by
  constructor
  · intro ops _
    exact runDeformOps_amplitude_nonneg cfg hmax ops initDeformState le_rfl
  · intro s op hop
    cases op with
    | trigger => exact le_of_eq rfl
    | advance d =>
      simp only [applyDeformOp, advanceFrame]
      exact le_add_of_nonneg_right hop

/-- C7 witness: the sphere configuration, a trigger followed by a one-second
advance. -/
theorem deformState_invariant_witness :
    0 ≤ (runDeformOps sphereDeformConfig
        [DeformOp.trigger, DeformOp.advance 1] initDeformState).amplitude ∧
    initDeformState.time ≤
      (applyDeformOp sphereDeformConfig initDeformState
        (DeformOp.advance 1)).time :=
  have h := deformState_invariant sphereDeformConfig
    (by norm_num [sphereDeformConfig, DEFAULT_MAX_AMPLITUDE])
  ⟨h.1 [DeformOp.trigger, DeformOp.advance 1]
      (by
        intro op hop
        simp only [List.mem_cons, List.not_mem_nil, or_false] at hop
        rcases hop with rfl | rfl
        · exact trivial
        · norm_num [ValidDeformOp]),
    h.2 initDeformState (DeformOp.advance 1) (by norm_num [ValidDeformOp])⟩

/-- C8: after a per-frame uniform update, every record in the model's
uniform list holds the shared elapsed time and the shared amplitude, so any
two records agree on both fields. -/
theorem sharedState_drives_all_uniform_records (st : DeformState)
    (l : List DeformUniforms) :
    (∀ u ∈ updateUniformsList st l,
        u.uDeformTime = st.time ∧ u.uDeformAmplitude = st.amplitude)
    ∧ ∀ u₁ ∈ updateUniformsList st l, ∀ u₂ ∈ updateUniformsList st l,
        u₁.uDeformTime = u₂.uDeformTime ∧
        u₁.uDeformAmplitude = u₂.uDeformAmplitude := by
  have hmem : ∀ u ∈ updateUniformsList st l,
      u.uDeformTime = st.time ∧ u.uDeformAmplitude = st.amplitude := by
    intro u hu
    obtain ⟨v, hv, rfl⟩ := List.mem_map.mp hu
    exact ⟨rfl, rfl⟩
  exact ⟨hmem, fun u₁ h₁ u₂ h₂ =>
    ⟨((hmem u₁ h₁).1).trans ((hmem u₂ h₂).1).symm,
      ((hmem u₁ h₁).2).trans ((hmem u₂ h₂).2).symm⟩⟩

/-- C8 witness: a two-record list updated from a concrete shared state; the
first record holds the shared time 7 and amplitude 0.5. -/
theorem sharedState_uniforms_witness :
    (⟨7, 0.5, 2.4⟩ : DeformUniforms).uDeformTime
        = (⟨0.5, 7⟩ : DeformState).time ∧
    (⟨7, 0.5, 2.4⟩ : DeformUniforms).uDeformAmplitude
        = (⟨0.5, 7⟩ : DeformState).amplitude :=
  (sharedState_drives_all_uniform_records ⟨0.5, 7⟩
      [⟨1, 2, 2.4⟩, ⟨3, 4, 2.4⟩]).1 ⟨7, 0.5, 2.4⟩
    (by simp [updateUniformsList])

/-- C9: the noise function is deterministic and pure — it is a function of
its 3D input alone, so two evaluations on identical inputs give identical
outputs. -/
theorem snoise_d_deterministic :
    ∀ v₁ v₂ : Vec3, v₁ = v₂ → snoise_d v₁ = snoise_d v₂ :=
  fun _ _ h => h ▸ rfl

/-- C9 witness: two evaluations at the origin coincide. -/
theorem snoise_d_deterministic_witness :
    snoise_d ⟨0, 0, 0⟩ = snoise_d ⟨0, 0, 0⟩ :=
  snoise_d_deterministic ⟨0, 0, 0⟩ ⟨0, 0, 0⟩ rfl
